import Mathlib

/-!
Verification of the manifest-reporting engine of the `pis` repository.

The definitions below are shallow embeddings of the Python source:
`platform_input_support/manifest/step_reporter.py`,
`platform_input_support/plugins/go.py`,
`platform_input_support/helpers/google.py`, and
`src/pis/config/models.py`.
Mutation of the step manifest is modelled by explicit state passing; the
`threading.Event` abort flag is modelled as a `Bool` threaded through the
calls; `sys.exit(1)` is modelled as `Except.error 1`.
-/

/-- Modelled from the spec: the task status enumeration lives in
`platform_input_support/manifest/models.py`, which is not part of the
provided sources.  The spec fixes the set of statuses as
PENDING, RUNNING, COMPLETED, VALIDATION_PASSED, VALIDATION_FAILED, FAILED. -/
inductive Status where
  | PENDING
  | RUNNING
  | COMPLETED
  | VALIDATION_PASSED
  | VALIDATION_FAILED
  | FAILED
deriving DecidableEq

/-- Modelled from the spec: the wire value string of a status.  The concrete
`.value` strings of the Python enum are not in the provided sources; only the
set of statuses is specified, so each status is given a distinct string. -/
def statusValue : Status → String
  | Status.PENDING => "pending"
  | Status.RUNNING => "running"
  | Status.COMPLETED => "completed"
  | Status.VALIDATION_PASSED => "validation_passed"
  | Status.VALIDATION_FAILED => "validation_failed"
  | Status.FAILED => "failed"

/-- A task manifest record, as consumed by `StepReporter`
(`platform_input_support/manifest/step_reporter.py`): the reporter reads only
`name` and `status` of each record. -/
structure TaskManifest where
  name : String
  status : Status
deriving DecidableEq

/-- The step manifest state owned by a `StepReporter`: `name`, aggregate
`status`, the ordered task list and the append-only log.  A fresh
`StepManifest(name=...)` starts with empty `tasks` and `log`; the spec gives
PENDING as the initial status. -/
structure StepManifest where
  name : String
  status : Status
  tasks : List TaskManifest
  log : List String
deriving DecidableEq

/-- `status in [Status.COMPLETED, Status.VALIDATION_PASSED]`, the passing
test used throughout `step_reporter.py`. -/
def passes (s : Status) : Bool :=
  decide (s ∈ [Status.COMPLETED, Status.VALIDATION_PASSED])

namespace StepReporter

/-- `StepReporter.__init__`: a fresh manifest for the given step name. -/
def init (name : String) : StepManifest :=
  { name := name, status := Status.PENDING, tasks := [], log := [] }

/-- `StepReporter.add_task_report`: appends the record to the task list and
sets the abort flag when the record's status is not passing.  The returned
`Bool` is the state of the abort `Event` after the call. -/
def add_task_report (r : StepManifest) (task_manifest : TaskManifest)
    (abort : Bool) : StepManifest × Bool :=
  let r := { r with tasks := r.tasks ++ [task_manifest] }
  if task_manifest.status ∈ [Status.COMPLETED, Status.VALIDATION_PASSED] then
    (r, abort)
  else
    (r, true)

/-- The log line appended for one task by `StepReporter.complete`. -/
def taskLine (task : TaskManifest) : String :=
  "task `" ++ task.name ++ "` " ++ statusValue task.status

/-- One iteration of the `for task in self._manifest.tasks` loop in
`StepReporter.complete`. -/
def completeStep (acc : StepManifest) (task : TaskManifest) : StepManifest :=
  let acc := { acc with log := acc.log ++ [taskLine task] }
  if task.status ∈ [Status.COMPLETED, Status.VALIDATION_PASSED] then
    acc
  else
    { acc with status := Status.FAILED }

/-- `StepReporter.complete`: sets the status to COMPLETED, then walks the task
list appending one log line per task and downgrading the status to FAILED on
any non-passing task. -/
def complete (r : StepManifest) : StepManifest :=
  r.tasks.foldl completeStep { r with status := Status.COMPLETED }

/-- `StepReporter.fail`: forces FAILED status, logs the reason, and logs the
error when one is given (`if error:` — an exception instance is truthy). -/
def fail (r : StepManifest) (reason : String) (error : Option String) :
    StepManifest :=
  let msg := "step `" ++ r.name ++ "` failed: " ++ reason
  let r := { r with status := Status.FAILED, log := r.log ++ [msg] }
  match error with
  | some e => { r with log := r.log ++ [e] }
  | none => r

/-- A sequence of `add_task_report` calls, threading manifest and abort flag. -/
def runAdds (r : StepManifest) (abort : Bool) :
    List TaskManifest → StepManifest × Bool
  | [] => (r, abort)
  | tm :: rest =>
    let p := add_task_report r tm abort
    runAdds p.1 p.2 rest

end StepReporter

/-- The per-task log lines produced by one pass of `complete`'s loop. -/
def taskLines (ts : List TaskManifest) : List String :=
  ts.map StepReporter.taskLine

lemma completeStep_name (acc : StepManifest) (t : TaskManifest) :
    (StepReporter.completeStep acc t).name = acc.name := by
  unfold StepReporter.completeStep
  split <;> rfl

lemma completeStep_tasks (acc : StepManifest) (t : TaskManifest) :
    (StepReporter.completeStep acc t).tasks = acc.tasks := by
  unfold StepReporter.completeStep
  split <;> rfl

lemma completeStep_log (acc : StepManifest) (t : TaskManifest) :
    (StepReporter.completeStep acc t).log = acc.log ++ [StepReporter.taskLine t] := by
  unfold StepReporter.completeStep
  split <;> rfl

lemma completeStep_status (acc : StepManifest) (t : TaskManifest) :
    (StepReporter.completeStep acc t).status =
      if passes t.status then acc.status else Status.FAILED := by
  unfold StepReporter.completeStep passes
  split <;> simp_all

lemma foldl_completeStep_tasks (ts : List TaskManifest) (acc : StepManifest) :
    (ts.foldl StepReporter.completeStep acc).tasks = acc.tasks := by
  induction ts generalizing acc with
  | nil => rfl
  | cons t ts ih => rw [List.foldl_cons, ih, completeStep_tasks]

lemma foldl_completeStep_name (ts : List TaskManifest) (acc : StepManifest) :
    (ts.foldl StepReporter.completeStep acc).name = acc.name := by
  induction ts generalizing acc with
  | nil => rfl
  | cons t ts ih => rw [List.foldl_cons, ih, completeStep_name]

lemma foldl_completeStep_log (ts : List TaskManifest) (acc : StepManifest) :
    (ts.foldl StepReporter.completeStep acc).log = acc.log ++ taskLines ts := by
  induction ts generalizing acc with
  | nil => simp [taskLines]
  | cons t ts ih =>
    rw [List.foldl_cons, ih, completeStep_log]
    simp [taskLines]

lemma foldl_completeStep_status (ts : List TaskManifest) (acc : StepManifest) :
    (ts.foldl StepReporter.completeStep acc).status =
      if ts.all (fun t => passes t.status) then acc.status else Status.FAILED := by
  induction ts generalizing acc with
  | nil => simp
  | cons t ts ih =>
    rw [List.foldl_cons, ih, completeStep_status]
    by_cases h : passes t.status = true
    · simp [h]
    · simp only [Bool.not_eq_true] at h
      simp [h]

lemma complete_status_eq (r : StepManifest) :
    (StepReporter.complete r).status =
      if r.tasks.all (fun t => passes t.status) then Status.COMPLETED
      else Status.FAILED := by
  unfold StepReporter.complete
  rw [foldl_completeStep_status]

lemma complete_tasks_eq (r : StepManifest) :
    (StepReporter.complete r).tasks = r.tasks := by
  unfold StepReporter.complete
  rw [foldl_completeStep_tasks]

lemma complete_log_eq (r : StepManifest) :
    (StepReporter.complete r).log = r.log ++ taskLines r.tasks := by
  unfold StepReporter.complete
  rw [foldl_completeStep_log]

/-- C1: after `complete()`, the step status is COMPLETED iff every task record
in the manifest has a status in \x7bCOMPLETED, VALIDATION_PASSED\x7d, and
FAILED otherwise. -/
theorem C1_complete_status_iff (r : StepManifest) :
    ((StepReporter.complete r).status = Status.COMPLETED ↔
      ∀ t ∈ r.tasks, passes t.status = true) ∧
    ((StepReporter.complete r).status = Status.FAILED ↔
      ¬ ∀ t ∈ r.tasks, passes t.status = true) := by
  rw [complete_status_eq]
  by_cases h : r.tasks.all (fun t => passes t.status) = true
  · rw [List.all_eq_true] at h
    simp_all
  · rw [List.all_eq_true] at h
    simp_all

/-- Claim C2 as stated is false: `complete()` has no re-entry guard, so a
second call appends the per-task log lines again.  Concretely, with one
COMPLETED task the log has one line after one `complete()` and two lines
after two. -/
theorem C2_counterexample :
    (StepReporter.complete (StepReporter.complete
        { name := "s", status := Status.PENDING,
          tasks := [{ name := "t1", status := Status.COMPLETED }],
          log := [] })).log ≠
      (StepReporter.complete
        { name := "s", status := Status.PENDING,
          tasks := [{ name := "t1", status := Status.COMPLETED }],
          log := [] }).log := by
  decide

/-- C2 (amended): `complete()` is not idempotent.  Each call appends one log
line per task, so a second call appends the whole block of per-task lines a
second time; the status, however, is unchanged by the second call. -/
theorem C2_complete_reentry (r : StepManifest) :
    (StepReporter.complete (StepReporter.complete r)).log =
      (StepReporter.complete r).log ++ taskLines r.tasks ∧
    (StepReporter.complete (StepReporter.complete r)).status =
      (StepReporter.complete r).status := by
  constructor
  · rw [complete_log_eq, complete_tasks_eq]
  · rw [complete_status_eq, complete_status_eq, complete_tasks_eq]

lemma add_task_report_tasks (r : StepManifest) (tm : TaskManifest) (a : Bool) :
    (StepReporter.add_task_report r tm a).1.tasks = r.tasks ++ [tm] := by
  unfold StepReporter.add_task_report
  split <;> rfl

lemma add_task_report_abort (r : StepManifest) (tm : TaskManifest) (a : Bool) :
    (StepReporter.add_task_report r tm a).2 =
      (a || ! passes tm.status) := by
  unfold StepReporter.add_task_report passes
  split <;> simp_all

/-- C3: `add_task_report` appends the record as the last element of the task
list; the abort flag afterwards is true iff it was already true or the
record's status is not passing; and the flag is monotonic: once true it stays
true across any further sequence of `add_task_report` calls. -/
theorem C3_add_task_report (r : StepManifest) (tm : TaskManifest) (abort : Bool) :
    (StepReporter.add_task_report r tm abort).1.tasks = r.tasks ++ [tm] ∧
    ((StepReporter.add_task_report r tm abort).2 = true ↔
      (abort = true ∨ passes tm.status = false)) ∧
    (∀ tms : List TaskManifest, (StepReporter.runAdds r true tms).2 = true) := by
  refine ⟨add_task_report_tasks r tm abort, ?_, ?_⟩
  · rw [add_task_report_abort]
    cases abort <;> cases h : passes tm.status <;> simp
  · intro tms
    clear tm abort
    induction tms generalizing r with
    | nil => rfl
    | cons tm rest ih =>
      simp only [StepReporter.runAdds]
      have ha := add_task_report_abort r tm true
      simp only [Bool.true_or] at ha
      rw [ha]
      exact ih _

/-- C4: `fail(reason, error)` forces FAILED status regardless of the tasks
already present (the task list is not consulted), appends one log line that
contains the reason as a substring, and appends one further line holding the
error detail exactly when an error is given. -/
theorem C4_fail (r : StepManifest) (reason : String) (error : Option String) :
    (StepReporter.fail r reason error).status = Status.FAILED ∧
    (StepReporter.fail r reason error).log =
      r.log ++ ["step `" ++ r.name ++ "` failed: " ++ reason] ++
        (match error with | some e => [e] | none => []) ∧
    (StepReporter.fail r reason error).tasks = r.tasks ∧
    List.IsInfix reason.data
      ("step `" ++ r.name ++ "` failed: " ++ reason).data := by
  refine ⟨?_, ?_, ?_, ?_⟩
  · unfold StepReporter.fail
    cases error <;> rfl
  · unfold StepReporter.fail
    cases error <;> simp
  · unfold StepReporter.fail
    cases error <;> rfl
  · refine ⟨("step `" ++ r.name ++ "` failed: ").data, [], ?_⟩
    simp [String.data_append]

/-- C5: starting from a fresh (empty-log) manifest all of whose N task records
are passing, one call to `complete()` yields status COMPLETED and a log of
exactly N lines, one per task; for an empty task list the status is COMPLETED
and the log stays empty. -/
theorem C5_complete_all_passing (r : StepManifest)
    (hlog : r.log = [])
    (hpass : ∀ t ∈ r.tasks, passes t.status = true) :
    (StepReporter.complete r).status = Status.COMPLETED ∧
    (StepReporter.complete r).log.length = r.tasks.length := by
  constructor
  · rw [complete_status_eq, if_pos]
    rw [List.all_eq_true]
    exact hpass
  · rw [complete_log_eq, hlog]
    simp [taskLines]

/-- Witness for C5 at a concrete two-task manifest: both tasks passing, so the
status is COMPLETED and the log has exactly two lines. -/
theorem C5_witness :
    (StepReporter.complete
        { name := "s", status := Status.PENDING,
          tasks := [{ name := "a", status := Status.COMPLETED },
                    { name := "b", status := Status.VALIDATION_PASSED }],
          log := [] }).status = Status.COMPLETED ∧
    (StepReporter.complete
        { name := "s", status := Status.PENDING,
          tasks := [{ name := "a", status := Status.COMPLETED },
                    { name := "b", status := Status.VALIDATION_PASSED }],
          log := [] }).log.length =
      ([{ name := "a", status := Status.COMPLETED },
        { name := "b", status := Status.VALIDATION_PASSED }] :
          List TaskManifest).length :=
  C5_complete_all_passing _ rfl (by decide)

/-- A resource record of the GO step's manifest
(`platform_input_support/plugins/go.py` reads only its status; the checksum
field records what `compute_checksums` attaches). -/
structure Resource where
  name : String
  status : Status
  checksum : Option String
deriving DecidableEq

/-- Modelled from the spec: `ManifestService.are_all_resources_complete` lives
outside the provided sources; the spec defines it as the pure predicate that
is true iff every record's status is in \x7bCOMPLETED, VALIDATION_PASSED\x7d. -/
def are_all_resources_complete (task_records : List Resource) : Bool :=
  task_records.all (fun r => passes r.status)

/-- The slice of the step manifest state touched by `GO.process`
(`manifest_step.status_completion`, `manifest_step.msg_completion`,
`manifest_step.resources`). -/
structure GoStep where
  status_completion : Status
  msg_completion : String
  resources : List Resource
deriving DecidableEq

/-- `GO.process` (`platform_input_support/plugins/go.py`), after the external
`Downloads(...).exec(conf)` collaborator has produced `newResources` and
checksums were computed: extends the resource list, then sets FAILED with the
failure message when not all resources are complete; finally, when the status
is not FAILED, sets COMPLETED with the success message. -/
def GO_process (step : GoStep) (newResources : List Resource) : GoStep :=
  let step := { step with resources := step.resources ++ newResources }
  let step :=
    if ! are_all_resources_complete step.resources then
      { step with status_completion := Status.FAILED,
                  msg_completion := "COULD NOT retrieve all the resources" }
    else step
  if step.status_completion ≠ Status.FAILED then
    { step with status_completion := Status.COMPLETED,
                msg_completion := "The step has completed its execution" }
  else step

/-- C6: `GO.process`, on a step whose status on entry is not already FAILED,
ends FAILED with message "COULD NOT retrieve all the resources" iff
`are_all_resources_complete` is false on the collected resources, and ends
COMPLETED otherwise. -/
theorem C6_go_process_status (step : GoStep) (newResources : List Resource)
    (h : step.status_completion ≠ Status.FAILED) :
    (((GO_process step newResources).status_completion = Status.FAILED ∧
        (GO_process step newResources).msg_completion =
          "COULD NOT retrieve all the resources") ↔
      are_all_resources_complete (step.resources ++ newResources) = false) ∧
    (are_all_resources_complete (step.resources ++ newResources) = true →
      (GO_process step newResources).status_completion = Status.COMPLETED) := by
  unfold GO_process
  cases hc : are_all_resources_complete (step.resources ++ newResources) with
  | false =>
    simp [hc]
  | true =>
    simp [hc, h]

/-- Witness for C6: a PENDING step with one COMPLETED resource collected ends
COMPLETED, and the FAILED-with-message outcome is equivalent to the (false)
incompleteness of its resources. -/
theorem C6_witness :
    (((GO_process { status_completion := Status.PENDING, msg_completion := "",
                    resources := [] }
          [{ name := "go.obo", status := Status.COMPLETED,
             checksum := some "c1" }]).status_completion = Status.FAILED ∧
        (GO_process { status_completion := Status.PENDING, msg_completion := "",
                      resources := [] }
          [{ name := "go.obo", status := Status.COMPLETED,
             checksum := some "c1" }]).msg_completion =
          "COULD NOT retrieve all the resources") ↔
      are_all_resources_complete
        (([] : List Resource) ++
          [{ name := "go.obo", status := Status.COMPLETED,
             checksum := some "c1" }]) = false) ∧
    (are_all_resources_complete
        (([] : List Resource) ++
          [{ name := "go.obo", status := Status.COMPLETED,
             checksum := some "c1" }]) = true →
      (GO_process { status_completion := Status.PENDING, msg_completion := "",
                    resources := [] }
        [{ name := "go.obo", status := Status.COMPLETED,
           checksum := some "c1" }]).status_completion = Status.COMPLETED) :=
  C6_go_process_status _ _ (by decide)

/-- The environment consulted by `GoogleHelper.__init__`
(`platform_input_support/helpers/google.py`): whether `google.auth.default()`
succeeds, the `config.gcp_bucket_path` setting, and — for each bucket name —
whether the bucket-existence check succeeds (`bucket_exists` folds NotFound
and cloud errors into `false`). -/
structure GoogleEnv where
  credentials_ok : Bool
  gcp_bucket_path : Option String
  bucket_exists : String → Bool

/-- `GoogleHelper.__init__`: exits the process with status 1 (modelled as
`Except.error 1`) on missing default credentials, on an unset
`gcp_bucket_path` setting, or on a configured bucket that does not exist;
otherwise construction succeeds. -/
def GoogleHelper_init (env : GoogleEnv) : Except Nat Unit :=
  if ! env.credentials_ok then
    Except.error 1
  else
    match env.gcp_bucket_path with
    | none => Except.error 1
    | some path =>
      if ! env.bucket_exists path then
        Except.error 1
      else
        Except.ok ()

/-- C7: constructing the `GoogleHelper` with missing default credentials, or
with `gcp_bucket_path` unset, or with a configured bucket that does not
exist, terminates the process with exit status 1 (the failure never reaches a
step manifest: the constructor never returns). -/
theorem C7_google_init_exits (env : GoogleEnv)
    (h : env.credentials_ok = false ∨ env.gcp_bucket_path = none ∨
      ∃ p, env.gcp_bucket_path = some p ∧ env.bucket_exists p = false) :
    GoogleHelper_init env = Except.error 1 := by
  unfold GoogleHelper_init
  rcases h with h | h | ⟨p, hp, hb⟩
  · simp [h]
  · cases hcred : env.credentials_ok <;> simp [h]
  · cases hcred : env.credentials_ok <;> simp [hp, hb]

/-- Witness for C7: with credentials present and a configured bucket that the
existence check rejects, construction exits with status 1. -/
theorem C7_witness :
    GoogleHelper_init
      { credentials_ok := true, gcp_bucket_path := some "open-targets-pre-data",
        bucket_exists := fun _ => false } = Except.error 1 :=
  C7_google_init_exits _ (Or.inr (Or.inr ⟨"open-targets-pre-data", rfl, rfl⟩))

/-- The `Settings` model of `src/pis/config/models.py`: its six fields.
`Path` fields are modelled as strings; `remote_uri` is optional. -/
structure Settings where
  step : String
  config_file : String
  work_dir : String
  remote_uri : Option String
  pool : Nat
  log_level : String
deriving DecidableEq

/-- An incoming pydantic model as seen by `Settings.merge_model`: the set of
explicitly-set field names (`model_fields_set`, which may also hold names
that are not `Settings` fields) together with the values `getattr` would
return for each `Settings` field name. -/
structure IncomingModel where
  model_fields_set : List String
  step : String
  config_file : String
  work_dir : String
  remote_uri : Option String
  pool : Nat
  log_level : String

/-- The iteration order of `for field_name in self.model_fields`: the fields
of `Settings` in declaration order. -/
def settingsFieldNames : List String :=
  ["step", "config_file", "work_dir", "remote_uri", "pool", "log_level"]

/-- One loop body of `merge_model`: `setattr(self, field_name,
getattr(incoming, field_name))` for a `Settings` field name. -/
def setSettingsField (s : Settings) (incoming : IncomingModel)
    (field_name : String) : Settings :=
  if field_name = "step" then { s with step := incoming.step }
  else if field_name = "config_file" then
    { s with config_file := incoming.config_file }
  else if field_name = "work_dir" then { s with work_dir := incoming.work_dir }
  else if field_name = "remote_uri" then
    { s with remote_uri := incoming.remote_uri }
  else if field_name = "pool" then { s with pool := incoming.pool }
  else if field_name = "log_level" then
    { s with log_level := incoming.log_level }
  else s

/-- `Settings.merge_model`: for each field of `Settings`, copy the incoming
value exactly when the field name is in the incoming model's
`model_fields_set`. -/
def merge_model (s : Settings) (incoming : IncomingModel) : Settings :=
  settingsFieldNames.foldl
    (fun acc field_name =>
      if field_name ∈ incoming.model_fields_set then
        setSettingsField acc incoming field_name
      else acc)
    s

/-- C8: `merge_model` overwrites exactly the `Settings` fields whose names
are in the incoming model's `model_fields_set`; every other field keeps the
value it had before the merge. -/
theorem C8_merge_model_frame (s : Settings) (incoming : IncomingModel) :
    (merge_model s incoming).step =
      (if "step" ∈ incoming.model_fields_set then incoming.step else s.step) ∧
    (merge_model s incoming).config_file =
      (if "config_file" ∈ incoming.model_fields_set then incoming.config_file
       else s.config_file) ∧
    (merge_model s incoming).work_dir =
      (if "work_dir" ∈ incoming.model_fields_set then incoming.work_dir
       else s.work_dir) ∧
    (merge_model s incoming).remote_uri =
      (if "remote_uri" ∈ incoming.model_fields_set then incoming.remote_uri
       else s.remote_uri) ∧
    (merge_model s incoming).pool =
      (if "pool" ∈ incoming.model_fields_set then incoming.pool else s.pool) ∧
    (merge_model s incoming).log_level =
      (if "log_level" ∈ incoming.model_fields_set then incoming.log_level
       else s.log_level) := by
  unfold merge_model settingsFieldNames
  simp only [List.foldl]
  split_ifs <;> simp_all [setSettingsField]

/-- The two kinds of cloud errors `GoogleHelper.list` catches while looking
up the bucket and listing blobs: `NotFound` and any other
`GoogleCloudError`. -/
inductive CloudErr where
  | notFound
  | other
deriving DecidableEq

/-- Python's `sub in s` substring test. -/
def strContains (s sub : String) : Bool :=
  decide (List.IsInfix sub.data s.data)

/-- `GoogleHelper.list` (`platform_input_support/helpers/google.py`), with the
external cloud call modelled by its outcome `blobs`: either a cloud error or
the list of blob names under the prefix.  On an error the function returns
the empty list; otherwise it filters by `include_` when given, else by
`exclude` when given, and prefixes each surviving name with the bucket URL. -/
def GoogleHelper_list (blobs : Except CloudErr (List String))
    (bucket_name : String) (include_ exclude : Option String) : List String :=
  match blobs with
  | Except.error _ => []
  | Except.ok file_list =>
    let file_list :=
      match include_ with
      | some i => file_list.filter (fun b => strContains b i)
      | none =>
        match exclude with
        | some e => file_list.filter (fun b => ! strContains b e)
        | none => file_list
    file_list.map (fun b => "gs://" ++ bucket_name ++ "/" ++ b)

/-- C9: `GoogleHelper.list` applies the exclude filter only when no include
filter is given — with both given the result is the same as with the exclude
dropped — and returns the empty list whenever the bucket lookup fails with
NotFound or any other cloud error. -/
theorem C9_list_exclude_ignored_and_errors (blobs : Except CloudErr (List String))
    (bucket_name : String) (i e : String) (err : CloudErr)
    (inc exc : Option String) :
    GoogleHelper_list blobs bucket_name (some i) (some e) =
      GoogleHelper_list blobs bucket_name (some i) none ∧
    GoogleHelper_list (Except.error err) bucket_name inc exc = [] := by
  constructor
  · cases blobs <;> rfl
  · rfl

/-- Python's `url.replace('gs://', '')`: a single left-to-right scan removing
each non-overlapping occurrence of `gs://` (the scan resumes after the
removed occurrence). -/
def stripGs : List Char → List Char
  | 'g' :: 's' :: ':' :: '/' :: '/' :: rest => stripGs rest
  | c :: rest => c :: stripGs rest
  | [] => []

/-- Python's `s.split('/', 1)`: the text before the first `/` together with
the remainder after it, or `none` when there is no `/`. -/
def splitFirstSlash : List Char → List Char × Option (List Char)
  | [] => ([], none)
  | c :: rest =>
    if c = '/' then ([], some rest)
    else
      let p := splitFirstSlash rest
      (c :: p.1, p.2)

/-- `GoogleHelper._parse_url`: replaces the occurrences of `gs://`, splits at
the first `/`, and returns the bucket name together with the optional file
path. -/
def GoogleHelper_parse_url (url : String) : String × Option String :=
  let stripped := stripGs url.data
  let p := splitFirstSlash stripped
  (String.mk p.1, p.2.map String.mk)

lemma splitFirstSlash_fst (l : List Char) :
    (splitFirstSlash l).1 = l.takeWhile (fun c => c != '/') := by
  induction l with
  | nil => rfl
  | cons c rest ih =>
    unfold splitFirstSlash
    by_cases h : c = '/'
    · simp [h, List.takeWhile_cons]
    · simp [h, List.takeWhile_cons, ih]

lemma splitFirstSlash_snd_none (l : List Char) :
    (splitFirstSlash l).2 = none ↔ ¬ ('/' ∈ l) := by
  induction l with
  | nil => simp [splitFirstSlash]
  | cons c rest ih =>
    unfold splitFirstSlash
    by_cases h : c = '/'
    · simp [h]
    · simp [h, ih]
      intro _ hc
      exact h hc.symm

/-- C10: `_parse_url` operates on the input with every scanned occurrence of
`gs://` removed (anywhere in the string, not only a leading prefix); its
first component is the text of that stripped string before its first `/`,
and its second component is `none` exactly when the stripped string contains
no `/` at all. -/
theorem C10_parse_url (url : String) :
    (GoogleHelper_parse_url url).1 =
      String.mk ((stripGs url.data).takeWhile (fun c => c != '/')) ∧
    ((GoogleHelper_parse_url url).2 = none ↔
      ¬ ('/' ∈ stripGs url.data)) := by
  constructor
  · simp only [GoogleHelper_parse_url]
    rw [splitFirstSlash_fst]
  · simp only [GoogleHelper_parse_url]
    rw [Option.map_eq_none']
    exact splitFirstSlash_snd_none _
